import Mathlib

/-!
# DynamicTreasuryPool — signed-claim treasury ledger, shallow embedding

The repository's core is the `DynamicTreasuryPool` contract: a treasury
that pays out amounts certified by an authorized off-chain calculator's
signature, with replay protection (per-user nonces), a hard per-lifetime
cap, a pause gate, an emergency administrator bypass, calculator
authorization with a mandatory activation delay, and a full ledger reset.

The contract source itself is not part of this tree; only its test suite
(`contracts/test/DynamicTreasuryPool.test.js`), tooling and a client hook
are.  The state machine below is therefore modelled from the repository
specification (sections 3–4: data model, CalculatorRegistry, ClaimLedger,
TreasuryAccount, ClaimProcessor) with the test suite pinning concrete
constants (1-hour activation delay, error ordering, digest layout).
The message-digest packing is taken from the `createMessageHash` helper in
the test file, which the tests state "exactly matches the contract's
internal `_createMessageHash`".

Identities (addresses) and times are `Nat`; token amounts are `Nat`
(the contract's uint256 values; no operation here can overflow 2^256
starting from in-range values, and solvency checks guard subtraction).
Signature recovery is idealized: a well-formed signature recovers its
signer exactly for the digest it was produced over; checked against any
other digest it recovers an identity that is not an authorized
calculator (in the real scheme, an unpredictable address), so the
processor rejects it as an unauthorized signer.
-/

namespace KiltTreasury

/-- Modelled from the spec: `UserClaimRecord` — per-user bookkeeping kept
by the ClaimLedger: cumulative claimed amount, replay-protection nonce,
last claim time, and the interaction flag used by the reset logic. -/
structure UserRecord where
  cumulativeClaimed : Nat
  nonce : Nat
  lastClaimTime : Nat
  hasInteracted : Bool
deriving DecidableEq

/-- The fresh (lazily-created / post-reset) user record: all zero/false. -/
def UserRecord.init : UserRecord :=
  { cumulativeClaimed := 0, nonce := 0, lastClaimTime := 0, hasInteracted := false }

/-- Modelled from the spec: the state of one calculator identity in the
CalculatorRegistry: Unauthorized, PendingActivation (carrying its
`activationEligibleAt` timestamp), Authorized, or Revoked. -/
inductive CalcState where
  | unauthorizedCalc : CalcState
  | pendingActivation (activationEligibleAt : Nat) : CalcState
  | authorizedCalc : CalcState
  | revokedCalc : CalcState
deriving DecidableEq

/-- Modelled from the spec: the typed rejection reasons of the claim
processor and the administrative operations. -/
inductive Reason where
  | rPaused : Reason
  | exceedsMaximum : Reason
  | malformedSignature : Reason
  | unauthorizedSigner : Reason
  | insufficientBalance : Reason
  | unauthorizedCaller : Reason
  | delayNotElapsed : Reason
deriving DecidableEq

/-- Modelled from the spec: the whole contract state — ClaimLedger
(per-user records and the two global counters), CalculatorRegistry,
TreasuryAccount balance, the immutable `absoluteMaxClaim` cap, and the
AccessGate (paused flag and administrator identity). -/
structure State where
  ledger : Nat → UserRecord
  calcs : Nat → CalcState
  balance : Nat
  totalClaimsProcessed : Nat
  totalAmountClaimed : Nat
  absoluteMaxClaim : Nat
  paused : Bool
  administrator : Nat

/-- Modelled from the spec: construction — treasury funded with
`initialFunding`, cap fixed, nothing claimed, no calculators, unpaused. -/
def initState (initialFunding maxClaim admin : Nat) : State :=
  { ledger := fun _ => UserRecord.init,
    calcs := fun _ => CalcState.unauthorizedCalc,
    balance := initialFunding,
    totalClaimsProcessed := 0,
    totalAmountClaimed := 0,
    absoluteMaxClaim := maxClaim,
    paused := false,
    administrator := admin }

/-- Big-endian fixed-width byte string of a value: `beBytes w v` is the
`w` low-order base-256 digits of `v`, most significant first — the byte
layout `ethers.solidityPacked` gives a `w`-byte field. -/
def beBytes : Nat → Nat → List Nat
  | 0, _ => []
  | w + 1, v => beBytes w (v / 256) ++ [v % 256]

/-- The message digest from `createMessageHash` in
`contracts/test/DynamicTreasuryPool.test.js`:
`solidityPackedKeccak256(['address','uint256','uint256'],
[user, totalRewardBalance, nonce])` — a 20-byte address, a 32-byte
amount, and a 32-byte nonce, tightly packed in that order.  keccak256 is
idealized as injective, so the digest is represented by the packed byte
string itself. -/
def packDigest (user claimedTotal nonce : Nat) : List Nat :=
  beBytes 20 user ++ (beBytes 32 claimedTotal ++ beBytes 32 nonce)

/-- Modelled from the spec: an (idealized) signature — whether its
encoding is malformed, the signer it recovers to, and the digest it was
produced over. -/
structure Sig where
  malformed : Bool
  signer : Nat
  digest : List Nat
deriving DecidableEq

/-- Modelled from the spec: `CalculatorRegistry.isAuthorized` — pure
lookup, Authorized state only. -/
def isAuthorized (s : State) (id : Nat) : Bool :=
  match s.calcs id with
  | CalcState.authorizedCalc => true
  | _ => false

/-- Modelled from the spec: the mandatory activation delay (the tests
advance time by 3600 seconds — one hour — before activating). -/
def ACTIVATION_DELAY : Nat := 3600

/-- Modelled from the spec: `proposeCalculator` (the contract's
`setPendingCalculatorAuthorization`) — administrator-only; creates or
overwrites a PendingActivation record eligible at `now + ACTIVATION_DELAY`. -/
def proposeCalculator (caller now id : Nat) (s : State) : State × Option Reason :=
  if caller = s.administrator then
    ({ s with calcs := fun a =>
        if a = id then CalcState.pendingActivation (now + ACTIVATION_DELAY) else s.calcs a },
    none)
  else (s, some Reason.unauthorizedCaller)

/-- Modelled from the spec: `activateCalculator` (the contract's
`activatePendingCalculator`) — administrator-only; fails with
DelayNotElapsed while `now < activationEligibleAt`, otherwise moves the
pending record to Authorized.  An identity with no pending record has no
eligibility time, modelled as never eligible. -/
def activateCalculator (caller now id : Nat) (s : State) : State × Option Reason :=
  if caller = s.administrator then
    match s.calcs id with
    | CalcState.pendingActivation t =>
        if now < t then (s, some Reason.delayNotElapsed)
        else ({ s with calcs := fun a =>
                  if a = id then CalcState.authorizedCalc else s.calcs a },
             none)
    | _ => (s, some Reason.delayNotElapsed)
  else (s, some Reason.unauthorizedCaller)

/-- Modelled from the spec: `revokeCalculator` (the contract's
`revokeCalculatorAuthorization`) — administrator-only; immediate, no
delay, from any prior state. -/
def revokeCalculator (caller id : Nat) (s : State) : State × Option Reason :=
  if caller = s.administrator then
    ({ s with calcs := fun a =>
        if a = id then CalcState.revokedCalc else s.calcs a },
    none)
  else (s, some Reason.unauthorizedCaller)

/-- Modelled from the spec: `pause` — administrator-only AccessGate flip. -/
def pause (caller : Nat) (s : State) : State × Option Reason :=
  if caller = s.administrator then ({ s with paused := true }, none)
  else (s, some Reason.unauthorizedCaller)

/-- Modelled from the spec: `unpause` — administrator-only AccessGate flip. -/
def unpause (caller : Nat) (s : State) : State × Option Reason :=
  if caller = s.administrator then ({ s with paused := false }, none)
  else (s, some Reason.unauthorizedCaller)

/-- Modelled from the spec: `depositTreasury` — administrator-only
treasury credit; not subject to the pause gate. -/
def depositTreasury (caller amount : Nat) (s : State) : State × Option Reason :=
  if caller = s.administrator then ({ s with balance := s.balance + amount }, none)
  else (s, some Reason.unauthorizedCaller)

/-- Modelled from the spec: `withdraw` (the contract's
`emergencyWithdraw`) — administrator-only; `0` is a sentinel meaning
"withdraw the entire balance"; otherwise fails with InsufficientBalance
when the amount exceeds the balance.  Not subject to the pause gate. -/
def withdraw (caller amount : Nat) (s : State) : State × Option Reason :=
  if caller = s.administrator then
    if amount = 0 then ({ s with balance := 0 }, none)
    else if s.balance < amount then (s, some Reason.insufficientBalance)
    else ({ s with balance := s.balance - amount }, none)
  else (s, some Reason.unauthorizedCaller)

/-- Modelled from the spec: `resetAllStates` — administrator-only; zeroes
every user record and both global counters in one atomic step. -/
def resetAllStates (caller : Nat) (s : State) : State × Option Reason :=
  if caller = s.administrator then
    ({ s with
        ledger := fun _ => UserRecord.init,
        totalClaimsProcessed := 0,
        totalAmountClaimed := 0 },
    none)
  else (s, some Reason.unauthorizedCaller)

/-- Modelled from the spec: `emergencyClaim` — administrator-only bypass
performing only the solvency check and the commit; skips the pause gate,
cap, signature and nonce checks entirely.  It records `hasInteracted`
and updates the global counters but does not advance the user's nonce. -/
def emergencyClaim (caller user amount : Nat) (s : State) : State × Option Reason :=
  if caller = s.administrator then
    if s.balance < amount then (s, some Reason.insufficientBalance)
    else
      ({ s with
          balance := s.balance - amount,
          ledger := fun a =>
            if a = user then
              { s.ledger a with
                  cumulativeClaimed := (s.ledger a).cumulativeClaimed + amount,
                  hasInteracted := true }
            else s.ledger a,
          totalClaimsProcessed := s.totalClaimsProcessed + 1,
          totalAmountClaimed := s.totalAmountClaimed + amount },
      none)
  else (s, some Reason.unauthorizedCaller)

/-- Modelled from the spec: `claimRewards` — the ClaimProcessor
algorithm, checks in the spec's order:
1. Paused; 2. ExceedsMaximum; 3. digest over the user's current nonce;
4. MalformedSignature on decode failure; 5. UnauthorizedSigner unless
the recovered signer is an authorized calculator (a signature over any
other digest recovers an unauthorizable identity, see the module
comment); 6. InsufficientBalance; 7. atomic commit: debit the treasury,
record the claim (cumulative + nonce + time + interaction), bump the
global counters.  Every rejection returns the state unchanged. -/
def claimRewards (now user claimedTotal : Nat) (sig : Sig) (s : State) :
    State × Option Reason :=
  if s.paused = true then (s, some Reason.rPaused)
  else if s.absoluteMaxClaim < claimedTotal then (s, some Reason.exceedsMaximum)
  else if sig.malformed = true then (s, some Reason.malformedSignature)
  else if sig.digest = packDigest user claimedTotal (s.ledger user).nonce
          ∧ isAuthorized s sig.signer = true then
    if s.balance < claimedTotal then (s, some Reason.insufficientBalance)
    else
      ({ s with
          balance := s.balance - claimedTotal,
          ledger := fun a =>
            if a = user then
              { cumulativeClaimed := (s.ledger a).cumulativeClaimed + claimedTotal,
                nonce := (s.ledger a).nonce + 1,
                lastClaimTime := now,
                hasInteracted := true }
            else s.ledger a,
          totalClaimsProcessed := s.totalClaimsProcessed + 1,
          totalAmountClaimed := s.totalAmountClaimed + claimedTotal },
      none)
  else (s, some Reason.unauthorizedSigner)

/-- One externally-submitted operation, with its caller and call-time
arguments — the alphabet of the contract's state machine. -/
inductive Op where
  | depositOp (caller amount : Nat) : Op
  | withdrawOp (caller amount : Nat) : Op
  | claimOp (now user amount : Nat) (sig : Sig) : Op
  | emergencyOp (caller user amount : Nat) : Op
  | pauseOp (caller : Nat) : Op
  | unpauseOp (caller : Nat) : Op
  | proposeOp (caller now id : Nat) : Op
  | activateOp (caller now id : Nat) : Op
  | revokeOp (caller id : Nat) : Op
  | resetOp (caller : Nat) : Op

/-- Dispatch one operation against the state. -/
def applyOp (s : State) : Op → State × Option Reason
  | Op.depositOp caller amount => depositTreasury caller amount s
  | Op.withdrawOp caller amount => withdraw caller amount s
  | Op.claimOp now user amount sig => claimRewards now user amount sig s
  | Op.emergencyOp caller user amount => emergencyClaim caller user amount s
  | Op.pauseOp caller => pause caller s
  | Op.unpauseOp caller => unpause caller s
  | Op.proposeOp caller now id => proposeCalculator caller now id s
  | Op.activateOp caller now id => activateCalculator caller now id s
  | Op.revokeOp caller id => revokeCalculator caller id s
  | Op.resetOp caller => resetAllStates caller s

/-- A state with ghost accounting: the running sums of amounts actually
moved by successful deposits, withdrawals, signed claims, and emergency
claims (a sentinel withdraw-all contributes the balance it swept). -/
structure Trace where
  state : State
  sumDeposits : Nat
  sumWithdrawals : Nat
  sumClaims : Nat
  sumEmergency : Nat

/-- Apply one operation to a trace, adding a successful money-moving
operation's amount to the matching ghost sum. -/
def stepTrace (t : Trace) (op : Op) : Trace :=
  match applyOp t.state op with
  | (s1, some _) => { t with state := s1 }
  | (s1, none) =>
    match op with
    | Op.depositOp _ amount => { t with state := s1, sumDeposits := t.sumDeposits + amount }
    | Op.withdrawOp _ amount =>
        { t with
          state := s1,
          sumWithdrawals := t.sumWithdrawals + (if amount = 0 then t.state.balance else amount) }
    | Op.claimOp _ _ amount _ => { t with state := s1, sumClaims := t.sumClaims + amount }
    | Op.emergencyOp _ _ amount => { t with state := s1, sumEmergency := t.sumEmergency + amount }
    | _ => { t with state := s1 }

/-- Run a list of operations left to right. -/
def runTrace (t : Trace) : List Op → Trace
  | [] => t
  | op :: ops => runTrace (stepTrace t op) ops

/-- The trace of a freshly constructed contract. -/
def initTrace (initialFunding maxClaim admin : Nat) : Trace :=
  { state := initState initialFunding maxClaim admin,
    sumDeposits := 0, sumWithdrawals := 0, sumClaims := 0, sumEmergency := 0 }

/-- Treasury conservation, as an equation over `Nat` (so the balance is
non-negative by type): balance plus everything paid out equals the
initial funding plus everything paid in. -/
def conserved (initialFunding : Nat) (t : Trace) : Prop :=
  t.state.balance + t.sumWithdrawals + t.sumClaims + t.sumEmergency
    = initialFunding + t.sumDeposits

/-- The four-field result tuple of the contract's `getUserStats` view, in
ABI order: `totalClaimedAmount`, `lastClaimTime`, `canClaimAt`,
`currentNonce` (field names from the ABI in
`client/src/hooks/use-reward-claiming.ts`). -/
structure UserStats where
  totalClaimedAmount : Nat
  lastClaimTime : Nat
  canClaimAt : Nat
  currentNonce : Nat
deriving DecidableEq

/-- Modelled from the spec: the contract's `getUserStats` view — the
first field is the user's cumulative claimed amount; `canClaimAt` is not
given semantics by the spec (the tests only ever observe it as 0). -/
def getUserStats (s : State) (user : Nat) : UserStats :=
  { totalClaimedAmount := (s.ledger user).cumulativeClaimed,
    lastClaimTime := (s.ledger user).lastClaimTime,
    canClaimAt := 0,
    currentNonce := (s.ledger user).nonce }

/-- The result shape of the client hook's `checkClaimability`. -/
structure ClaimabilityResult where
  isClaimable : Bool
  claimableAmount : Nat
  lockExpiryDate : Option Nat
deriving DecidableEq

/-- Embedded from `checkClaimability` in
`client/src/hooks/use-reward-claiming.ts` (success path): it reads
`getUserStats(user)`, takes field `[0]` as `claimableAmount`, sets
`isClaimable := claimableAmount > 0`, and always returns
`lockExpiryDate: null` ("No lock period in BasicTreasuryPool"). -/
def checkClaimability (stats : UserStats) : ClaimabilityResult :=
  { isClaimable := decide (0 < stats.totalClaimedAmount),
    claimableAmount := stats.totalClaimedAmount,
    lockExpiryDate := none }

/-! ## Byte-layout lemmas for the packed digest -/

/-- `beBytes w v` always has exactly `w` bytes — fixed field widths. -/
theorem beBytes_length (w : Nat) : ∀ v, (beBytes w v).length = w := by
  induction w with
  | zero => intro v; simp [beBytes]
  | succ w ih => intro v; simp [beBytes, ih]

/-- Reading a big-endian byte string back: folding `beBytes w v` onto an
accumulator recovers `v`'s low `w` bytes. -/
theorem beBytes_foldl (w : Nat) :
    ∀ acc v, (beBytes w v).foldl (fun a b => a * 256 + b) acc
      = acc * 256 ^ w + v % 256 ^ w := by
  induction w with
  | zero => intro acc v; simp [beBytes, Nat.mod_one]
  | succ w ih =>
    intro acc v
    simp only [beBytes, List.foldl_append, ih, List.foldl]
    have h256 : v % 256 ^ (w + 1) = v % 256 + 256 * (v / 256 % 256 ^ w) := by
      rw [pow_succ', Nat.mod_mul]
    rw [h256, pow_succ]
    ring

/-- Two equal `w`-byte strings come from values equal modulo `256 ^ w`. -/
theorem beBytes_inj_mod {w v1 v2 : Nat} (h : beBytes w v1 = beBytes w v2) :
    v1 % 256 ^ w = v2 % 256 ^ w := by
  have h1 := congrArg (List.foldl (fun a b => a * 256 + b) 0) h
  rwa [beBytes_foldl, beBytes_foldl, Nat.zero_mul, Nat.zero_add, Nat.zero_add] at h1

/-- The packed digest distinguishes a nonce from its successor: a
signature over nonce `n` never matches the digest for nonce `n + 1`. -/
theorem packDigest_nonce_ne (u a n : Nat) : packDigest u a n ≠ packDigest u a (n + 1) := by
  intro h
  unfold packDigest at h
  have h1 := List.append_cancel_left h
  have h2 := List.append_cancel_left h1
  have h3 : Nat.ModEq (256 ^ 32) n (n + 1) := beBytes_inj_mod h2
  have hdvd : (256 ^ 32 : Nat) ∣ (n + 1) - n := (Nat.modEq_iff_dvd' (Nat.le_succ n)).mp h3
  have hone : (n + 1) - n = 1 := by omega
  rw [hone] at hdvd
  have h4 : (256 ^ 32 : Nat) = 1 := Nat.dvd_one.mp hdvd
  norm_num at h4

/-- Injectivity of the fixed-layout packing on in-range field values: the
digest layout `(address 20 bytes | uint256 32 bytes | uint256 32 bytes)`
determines the user, the amount, and the nonce. -/
theorem packDigest_inj {u a n u1 a1 n1 : Nat}
    (hu : u < 256 ^ 20) (ha : a < 256 ^ 32) (hn : n < 256 ^ 32)
    (hu1 : u1 < 256 ^ 20) (ha1 : a1 < 256 ^ 32) (hn1 : n1 < 256 ^ 32)
    (h : packDigest u a n = packDigest u1 a1 n1) : u = u1 ∧ a = a1 ∧ n = n1 := by
  unfold packDigest at h
  have hl1 : (beBytes 20 u).length = (beBytes 20 u1).length := by
    rw [beBytes_length, beBytes_length]
  obtain ⟨e1, e2⟩ := List.append_inj h hl1
  have hl2 : (beBytes 32 a).length = (beBytes 32 a1).length := by
    rw [beBytes_length, beBytes_length]
  obtain ⟨e3, e4⟩ := List.append_inj e2 hl2
  refine ⟨?_, ?_, ?_⟩
  · have hm := beBytes_inj_mod e1
    rwa [Nat.mod_eq_of_lt hu, Nat.mod_eq_of_lt hu1] at hm
  · have hm := beBytes_inj_mod e3
    rwa [Nat.mod_eq_of_lt ha, Nat.mod_eq_of_lt ha1] at hm
  · have hm := beBytes_inj_mod e4
    rwa [Nat.mod_eq_of_lt hn, Nat.mod_eq_of_lt hn1] at hm

/-! ## Shared helper lemmas about the operations -/

/-- No operation, successful or rejected, ever changes the
`absoluteMaxClaim` cap: it is immutable after construction. -/
theorem applyOp_absoluteMaxClaim (s : State) (op : Op) :
    ((applyOp s op).1).absoluteMaxClaim = s.absoluteMaxClaim := by
  cases op <;>
    simp only [applyOp, depositTreasury, withdraw, claimRewards, emergencyClaim,
      pause, unpause, proposeCalculator, activateCalculator, revokeCalculator,
      resetAllStates] <;>
    (try split) <;> (try split) <;> (try split) <;>
    (try split) <;> (try split) <;> rfl

/-! ## Example states for the concrete witnesses -/

/-- A well-formed signature by calculator 7 over `(user 1, amount 2, nonce 0)`. -/
def exSig : Sig := { malformed := false, signer := 7, digest := packDigest 1 2 0 }

/-- A paused contract (administrator 0, funding 100, cap 50) in which
calculator 7 is authorized. -/
def exPausedState : State :=
  { initState 100 50 0 with
      paused := true,
      calcs := fun a => if a = 7 then CalcState.authorizedCalc else CalcState.unauthorizedCalc }

/-- C4: atomicity of claim processing — every rejected `claimRewards`
attempt (whatever the reason: paused, over-cap, malformed signature,
unauthorized signer, insufficient balance) leaves the entire state
(ledger, treasury, registry, access gate) exactly as it was. -/
theorem claim_C4_atomic_rejection (now user amt : Nat) (sig : Sig) (s : State) (r : Reason)
    (h : (claimRewards now user amt sig s).2 = some r) :
    (claimRewards now user amt sig s).1 = s := by
  unfold claimRewards at h ⊢
  split_ifs at h ⊢ <;> simp_all

/-- C4 witness: a concrete rejected claim (on a paused contract) whose
result state is the input state. -/
theorem claim_C4_witness : (claimRewards 0 1 2 exSig exPausedState).1 = exPausedState :=
  claim_C4_atomic_rejection 0 1 2 exSig exPausedState Reason.rPaused (by rfl)

/-- C10: the client hook's claimability check — `isClaimable` is true
exactly when the first field of the contract's `getUserStats` result (the
user's cumulative claimed amount) is strictly positive, and
`lockExpiryDate` is always `null`. -/
theorem claim_C10_client_claimability (s : State) (user : Nat) :
    ((checkClaimability (getUserStats s user)).isClaimable = true
      ↔ 0 < (s.ledger user).cumulativeClaimed)
    ∧ (checkClaimability (getUserStats s user)).lockExpiryDate = none := by
  constructor
  · simp [checkClaimability, getUserStats]
  · rfl

/-- One operation preserves treasury conservation: a successful deposit
adds to the balance and to the deposit sum; a successful withdrawal,
claim, or emergency claim removes from the balance what it adds to its
sum (guarded by the solvency checks); every other outcome moves no money. -/
theorem stepTrace_conserved (f : Nat) (t : Trace) (op : Op) (h : conserved f t) :
    conserved f (stepTrace t op) := by
  unfold conserved at h ⊢
  cases op with
  | depositOp caller amount =>
    simp only [stepTrace, applyOp, depositTreasury]
    by_cases hc : caller = t.state.administrator <;> simp [hc] <;> omega
  | withdrawOp caller amount =>
    simp only [stepTrace, applyOp, withdraw]
    by_cases hc : caller = t.state.administrator
    · by_cases h0 : amount = 0
      · simp [hc, h0]; omega
      · by_cases hb : t.state.balance < amount
        · simp [hc, h0, hb]; omega
        · simp [hc, h0, hb]; omega
    · simp [hc]; omega
  | claimOp now user amount sig =>
    simp only [stepTrace, applyOp, claimRewards]
    by_cases h1 : t.state.paused = true
    · simp [h1]; omega
    · by_cases h2 : t.state.absoluteMaxClaim < amount
      · simp [h1, h2]; omega
      · by_cases h3 : sig.malformed = true
        · simp [h1, h2, h3]; omega
        · by_cases h4 : sig.digest = packDigest user amount (t.state.ledger user).nonce
              ∧ isAuthorized t.state sig.signer = true
          · by_cases h5 : t.state.balance < amount
            · simp [h1, h2, h3, h4, h5]; omega
            · simp [h1, h2, h3, h4, h5]; omega
          · simp [h1, h2, h3, h4]; omega
  | emergencyOp caller user amount =>
    simp only [stepTrace, applyOp, emergencyClaim]
    by_cases hc : caller = t.state.administrator
    · by_cases hb : t.state.balance < amount
      · simp [hc, hb]; omega
      · simp [hc, hb]; omega
    · simp [hc]; omega
  | pauseOp caller =>
    simp only [stepTrace, applyOp, pause]
    by_cases hc : caller = t.state.administrator <;> simp [hc] <;> omega
  | unpauseOp caller =>
    simp only [stepTrace, applyOp, unpause]
    by_cases hc : caller = t.state.administrator <;> simp [hc] <;> omega
  | proposeOp caller now id =>
    simp only [stepTrace, applyOp, proposeCalculator]
    by_cases hc : caller = t.state.administrator <;> simp [hc] <;> omega
  | activateOp caller now id =>
    simp only [stepTrace, applyOp, activateCalculator]
    by_cases hc : caller = t.state.administrator
    · rcases hcase : t.state.calcs id with _ | te | _ | _
      · simp [hc, hcase]; omega
      · by_cases hd : now < te
        · simp [hc, hcase, hd]; omega
        · simp [hc, hcase, hd]; omega
      · simp [hc, hcase]; omega
      · simp [hc, hcase]; omega
    · simp [hc]; omega
  | revokeOp caller id =>
    simp only [stepTrace, applyOp, revokeCalculator]
    by_cases hc : caller = t.state.administrator <;> simp [hc] <;> omega
  | resetOp caller =>
    simp only [stepTrace, applyOp, resetAllStates]
    by_cases hc : caller = t.state.administrator <;> simp [hc] <;> omega

/-- Conservation is preserved along any operation sequence. -/
theorem runTrace_conserved (f : Nat) :
    ∀ (ops : List Op) (t : Trace), conserved f t → conserved f (runTrace t ops)
  | [], _, h => h
  | op :: ops, t, h => runTrace_conserved f ops _ (stepTrace_conserved f t op h)

/-- C2: conservation of the treasury balance — starting from a freshly
constructed contract, after any sequence of operations the balance plus
the amounts moved out by successful withdrawals, signed claims, and
emergency claims equals the initial funding plus the amounts moved in by
successful deposits (so the `Nat` balance always equals
`initialFunding + sumDeposits - sumWithdrawals - sumClaims - sumEmergency`
and is never negative). -/
theorem claim_C2_conservation (initialFunding maxClaim admin : Nat) (ops : List Op) :
    conserved initialFunding (runTrace (initTrace initialFunding maxClaim admin) ops) := by
  apply runTrace_conserved
  unfold conserved initTrace initState
  simp

/-- C1: replay protection — if `claimRewards` succeeds for
`(user, amount, signature)`, resubmitting the identical triple to the
resulting state (no intervening reset) is rejected: the success bumped
the user's nonce, so the signature's digest no longer matches the digest
over the current nonce and recovery yields no authorized calculator.  A
given `(user, nonce)` pair therefore authorizes at most one successful
claim. -/
theorem claim_C1_replay_protection (now now2 user amt : Nat) (sig : Sig) (s s1 : State)
    (h : claimRewards now user amt sig s = (s1, none)) :
    claimRewards now2 user amt sig s1 = (s1, some Reason.unauthorizedSigner) := by
  unfold claimRewards at h
  split_ifs at h with h1 h2 h3 h4 h5
  all_goals try (injection h with hfst hsnd; exact Option.noConfusion hsnd)
  injection h with hs hsnd
  have hp : s1.paused = s.paused := by rw [← hs]
  have hmax : s1.absoluteMaxClaim = s.absoluteMaxClaim := by rw [← hs]
  have hl : (s1.ledger user).nonce = (s.ledger user).nonce + 1 := by
    rw [← hs]; simp
  unfold claimRewards
  split_ifs with g1 g2 g3 g4
  · rw [hp] at g1; exact absurd g1 h1
  · rw [hmax] at g2; exact absurd g2 h2
  · exfalso
    obtain ⟨g3a, -⟩ := g3
    rw [hl] at g3a
    exact packDigest_nonce_ne user amt (s.ledger user).nonce (h4.1.symm.trans g3a)
  · exfalso
    obtain ⟨g3a, -⟩ := g3
    rw [hl] at g3a
    exact packDigest_nonce_ne user amt (s.ledger user).nonce (h4.1.symm.trans g3a)
  · rfl

/-- An unpaused contract (administrator 0, funding 100, cap 50) in which
calculator 7 is authorized. -/
def exClaimState : State :=
  { initState 100 50 0 with
      calcs := fun a => if a = 7 then CalcState.authorizedCalc else CalcState.unauthorizedCalc }

/-- A well-formed signature by calculator 7 over `(user 1, amount 60, nonce 0)` —
an amount over the cap of 50. -/
def exSigOverCap : Sig := { malformed := false, signer := 7, digest := packDigest 1 60 0 }

/-- C1 witness: a concrete successful claim (user 1, amount 2, calculator 7)
whose identical resubmission against the resulting state is rejected as an
unauthorized signer. -/
theorem claim_C1_witness :
    claimRewards 9 1 2 exSig ((claimRewards 5 1 2 exSig exClaimState).1)
      = ((claimRewards 5 1 2 exSig exClaimState).1, some Reason.unauthorizedSigner) :=
  claim_C1_replay_protection 5 9 1 2 exSig exClaimState
    ((claimRewards 5 1 2 exSig exClaimState).1) (by rfl)

/-- C3 counterexample: the claim promises the reason ExceedsMaximum for
every over-cap claim request, but on a paused contract the pause gate
fires first — here an over-cap amount (60 > cap 50) with a well-formed,
correctly-targeted, authorized signature is rejected with Paused, not
ExceedsMaximum. -/
theorem claim_C3_counterexample :
    exPausedState.absoluteMaxClaim < 60
    ∧ exSigOverCap.malformed = false
    ∧ exSigOverCap.digest = packDigest 1 60 (exPausedState.ledger 1).nonce
    ∧ isAuthorized exPausedState exSigOverCap.signer = true
    ∧ (claimRewards 0 1 60 exSigOverCap exPausedState).2 = some Reason.rPaused
    ∧ (claimRewards 0 1 60 exSigOverCap exPausedState).2 ≠ some Reason.exceedsMaximum := by
  refine ⟨by decide, rfl, rfl, rfl, rfl, by decide⟩

/-- C3 (amended): cap enforcement — an over-cap claim is always rejected
and never pays out, whatever the signature; the rejection reason is
ExceedsMaximum whenever the contract is not paused (when paused, the
pause gate fires first with Paused); and no operation ever changes
`absoluteMaxClaim` after construction. -/
theorem claim_C3_cap_enforcement (now user amt : Nat) (sig : Sig) (s : State)
    (hcap : s.absoluteMaxClaim < amt) :
    (∃ r, (claimRewards now user amt sig s).2 = some r)
    ∧ (s.paused = false → (claimRewards now user amt sig s).2 = some Reason.exceedsMaximum)
    ∧ ∀ op, ((applyOp s op).1).absoluteMaxClaim = s.absoluteMaxClaim := by
  refine ⟨?_, ?_, fun op => applyOp_absoluteMaxClaim s op⟩
  · unfold claimRewards
    split_ifs with g1 <;> first
      | exact ⟨Reason.rPaused, rfl⟩
      | exact ⟨Reason.exceedsMaximum, rfl⟩
  · intro hpf
    unfold claimRewards
    split_ifs with g1 <;> first
      | (rw [hpf] at g1; exact Bool.noConfusion g1)
      | rfl

/-- C3 witness: on the unpaused example contract, the over-cap claim of 60
rejects with ExceedsMaximum and the cap is preserved by every operation. -/
theorem claim_C3_witness :
    (∃ r, (claimRewards 0 1 60 exSigOverCap exClaimState).2 = some r)
    ∧ (exClaimState.paused = false →
        (claimRewards 0 1 60 exSigOverCap exClaimState).2 = some Reason.exceedsMaximum)
    ∧ ∀ op, ((applyOp exClaimState op).1).absoluteMaxClaim = exClaimState.absoluteMaxClaim :=
  claim_C3_cap_enforcement 0 1 60 exSigOverCap exClaimState (by decide)

/-- C5: pause gate — while paused, every `claimRewards` call rejects with
Paused, for every user, amount, and signature; `emergencyClaim`,
`depositTreasury`, and `withdraw` are never subject to the pause and
still succeed under their own preconditions (administrator caller,
sufficient balance). -/
theorem claim_C5_pause_gate (now user amt damt wamt euser eamt caller : Nat) (sig : Sig)
    (s : State) (hp : s.paused = true) (hc : caller = s.administrator)
    (he : eamt ≤ s.balance) (hw : wamt ≤ s.balance) :
    (claimRewards now user amt sig s).2 = some Reason.rPaused
    ∧ (emergencyClaim caller euser eamt s).2 = none
    ∧ (depositTreasury caller damt s).2 = none
    ∧ (withdraw caller wamt s).2 = none := by
  refine ⟨?_, ?_, ?_, ?_⟩
  · unfold claimRewards
    rw [if_pos hp]
  · unfold emergencyClaim
    rw [if_pos hc, if_neg (by omega)]
  · unfold depositTreasury
    rw [if_pos hc]
  · unfold withdraw
    rcases Nat.eq_zero_or_pos wamt with h0 | h0
    · rw [if_pos hc, if_pos h0]
    · rw [if_pos hc, if_neg (by omega), if_neg (by omega)]

/-- C5 witness: the paused example contract rejects a signed claim with
Paused while an emergency claim, a deposit, and a withdrawal by the
administrator all succeed. -/
theorem claim_C5_witness :
    (claimRewards 0 1 2 exSig exPausedState).2 = some Reason.rPaused
    ∧ (emergencyClaim 0 3 5 exPausedState).2 = none
    ∧ (depositTreasury 0 11 exPausedState).2 = none
    ∧ (withdraw 0 7 exPausedState).2 = none :=
  claim_C5_pause_gate 0 1 2 11 7 3 5 0 exSig exPausedState rfl rfl (by decide) (by decide)

/-- C6: asymmetric authorization delay — activating immediately after a
proposal fails with DelayNotElapsed (the delay is strictly positive);
for a pending identity, activation fails with DelayNotElapsed exactly
while `now < activationEligibleAt`, and once the delay has elapsed it
succeeds and the identity becomes Authorized; revocation succeeds
immediately from any prior state and leaves the identity unauthorized. -/
theorem claim_C6_activation_delay (caller now now2 eligibleAt id : Nat) (s : State)
    (hc : caller = s.administrator) :
    (activateCalculator caller now id (proposeCalculator caller now id s).1).2
        = some Reason.delayNotElapsed
    ∧ (s.calcs id = CalcState.pendingActivation eligibleAt → now2 < eligibleAt →
        activateCalculator caller now2 id s = (s, some Reason.delayNotElapsed))
    ∧ (s.calcs id = CalcState.pendingActivation eligibleAt → eligibleAt ≤ now2 →
        (activateCalculator caller now2 id s).2 = none
        ∧ isAuthorized (activateCalculator caller now2 id s).1 id = true)
    ∧ ((revokeCalculator caller id s).2 = none
        ∧ isAuthorized (revokeCalculator caller id s).1 id = false) := by
  refine ⟨?_, ?_, ?_, ?_, ?_⟩
  · simp [proposeCalculator, activateCalculator, hc, ACTIVATION_DELAY]
  · intro hpend hlt
    simp [activateCalculator, hc, hpend, hlt]
  · intro hpend hle
    have hnl : ¬ now2 < eligibleAt := Nat.not_lt.mpr hle
    constructor
    · simp [activateCalculator, hc, hpend, hnl]
    · simp [activateCalculator, hc, hpend, hnl, isAuthorized]
  · simp [revokeCalculator, hc]
  · simp [revokeCalculator, hc, isAuthorized]

/-- A contract (administrator 0, funding 100, cap 50) in which calculator 9
has a pending authorization that becomes eligible at time 1000. -/
def exPendingState : State :=
  { initState 100 50 0 with
      calcs := fun a => if a = 9 then CalcState.pendingActivation 1000
               else CalcState.unauthorizedCalc }

/-- C6 witness: for the pending calculator 9 (eligible at 1000),
activation straight after a proposal fails, late activation at time 2000
succeeds and authorizes, and revocation immediately deauthorizes. -/
theorem claim_C6_witness :
    (activateCalculator 0 4 9 (proposeCalculator 0 4 9 exPendingState).1).2
        = some Reason.delayNotElapsed
    ∧ (exPendingState.calcs 9 = CalcState.pendingActivation 1000 → 2000 < 1000 →
        activateCalculator 0 2000 9 exPendingState
          = (exPendingState, some Reason.delayNotElapsed))
    ∧ (exPendingState.calcs 9 = CalcState.pendingActivation 1000 → 1000 ≤ 2000 →
        (activateCalculator 0 2000 9 exPendingState).2 = none
        ∧ isAuthorized (activateCalculator 0 2000 9 exPendingState).1 9 = true)
    ∧ ((revokeCalculator 0 9 exPendingState).2 = none
        ∧ isAuthorized (revokeCalculator 0 9 exPendingState).1 9 = false) :=
  claim_C6_activation_delay 0 4 2000 1000 9 exPendingState rfl

/-- C7: reset completeness — a reset by the administrator succeeds; after
it every user's record reads cumulativeClaimed 0, nonce 0,
hasInteracted false, and both global counters read 0; and any user can
then make a successful signed claim again with a signature over nonce 0
(given the usual standing preconditions: unpaused, within cap, solvent,
well-formed authorized signature). -/
theorem claim_C7_reset_completeness (caller user now amt : Nat) (sig : Sig) (s : State)
    (hc : caller = s.administrator) :
    (resetAllStates caller s).2 = none
    ∧ (∀ u, ((resetAllStates caller s).1.ledger u).cumulativeClaimed = 0
        ∧ ((resetAllStates caller s).1.ledger u).nonce = 0
        ∧ ((resetAllStates caller s).1.ledger u).hasInteracted = false)
    ∧ (resetAllStates caller s).1.totalClaimsProcessed = 0
    ∧ (resetAllStates caller s).1.totalAmountClaimed = 0
    ∧ (s.paused = false → amt ≤ s.absoluteMaxClaim → amt ≤ s.balance →
        sig.malformed = false → sig.digest = packDigest user amt 0 →
        isAuthorized s sig.signer = true →
        (claimRewards now user amt sig (resetAllStates caller s).1).2 = none) := by
  refine ⟨?_, ?_, ?_, ?_, ?_⟩
  · simp [resetAllStates, hc]
  · intro u
    simp [resetAllStates, hc, UserRecord.init]
  · simp [resetAllStates, hc]
  · simp [resetAllStates, hc]
  · intro hp hm hb hmal hd hauth
    have e1 : ¬ ((resetAllStates caller s).1.paused = true) := by
      simp [resetAllStates, hc, hp]
    have e2 : ¬ ((resetAllStates caller s).1.absoluteMaxClaim < amt) := by
      simp only [resetAllStates, hc, if_pos]
      omega
    have e3 : sig.digest
        = packDigest user amt (((resetAllStates caller s).1.ledger user).nonce) := by
      simp only [resetAllStates, hc, if_pos]
      exact hd
    have e4 : isAuthorized ((resetAllStates caller s).1) sig.signer = true := by
      simpa [resetAllStates, hc, isAuthorized] using hauth
    have e5 : ¬ ((resetAllStates caller s).1.balance < amt) := by
      simp only [resetAllStates, hc, if_pos]
      omega
    have e6 : ¬ (sig.malformed = true) := by simp [hmal]
    unfold claimRewards
    rw [if_neg e1, if_neg e2, if_neg e6, if_pos (And.intro e3 e4), if_neg e5]

/-- C7 witness: resetting the unpaused example contract zeroes the
ledger and counters, and user 1 can then claim 2 again at nonce 0. -/
theorem claim_C7_witness :
    (resetAllStates 0 exClaimState).2 = none
    ∧ (∀ u, ((resetAllStates 0 exClaimState).1.ledger u).cumulativeClaimed = 0
        ∧ ((resetAllStates 0 exClaimState).1.ledger u).nonce = 0
        ∧ ((resetAllStates 0 exClaimState).1.ledger u).hasInteracted = false)
    ∧ (resetAllStates 0 exClaimState).1.totalClaimsProcessed = 0
    ∧ (resetAllStates 0 exClaimState).1.totalAmountClaimed = 0
    ∧ (exClaimState.paused = false → 2 ≤ exClaimState.absoluteMaxClaim →
        2 ≤ exClaimState.balance → exSig.malformed = false →
        exSig.digest = packDigest 1 2 0 →
        isAuthorized exClaimState exSig.signer = true →
        (claimRewards 5 1 2 exSig (resetAllStates 0 exClaimState).1).2 = none) :=
  claim_C7_reset_completeness 0 1 5 2 exSig exClaimState rfl

/-- C8: nonce discipline and emergency-claim orthogonality — a successful
signed claim advances the claiming user's nonce by exactly 1; a
successful emergency claim leaves the user's nonce unchanged, sets
`hasInteracted`, credits the user's cumulative claimed amount, and
debits the treasury by the claimed amount. -/
theorem claim_C8_nonce_discipline (now user amt caller euser eamt : Nat) (sig : Sig)
    (s : State) (hsucc : (claimRewards now user amt sig s).2 = none)
    (hc : caller = s.administrator) (hbal : eamt ≤ s.balance) :
    ((claimRewards now user amt sig s).1.ledger user).nonce = (s.ledger user).nonce + 1
    ∧ (emergencyClaim caller euser eamt s).2 = none
    ∧ ((emergencyClaim caller euser eamt s).1.ledger euser).nonce = (s.ledger euser).nonce
    ∧ ((emergencyClaim caller euser eamt s).1.ledger euser).hasInteracted = true
    ∧ ((emergencyClaim caller euser eamt s).1.ledger euser).cumulativeClaimed
        = (s.ledger euser).cumulativeClaimed + eamt
    ∧ (emergencyClaim caller euser eamt s).1.balance = s.balance - eamt := by
  have hnb : ¬ s.balance < eamt := by omega
  refine ⟨?_, ?_, ?_, ?_, ?_, ?_⟩
  · unfold claimRewards at hsucc ⊢
    split_ifs at hsucc ⊢ with h1 h2 h3 h4 h5
    simp
  · simp [emergencyClaim, hc, hnb]
  · simp [emergencyClaim, hc, hnb]
  · simp [emergencyClaim, hc, hnb]
  · simp [emergencyClaim, hc, hnb]
  · simp [emergencyClaim, hc, hnb]

/-- C8 witness: the concrete successful claim bumps user 1's nonce from 0
to 1, and an emergency claim of 4 for user 3 debits the treasury,
credits the user, flags the interaction, and leaves the nonce alone. -/
theorem claim_C8_witness :
    ((claimRewards 5 1 2 exSig exClaimState).1.ledger 1).nonce
        = (exClaimState.ledger 1).nonce + 1
    ∧ (emergencyClaim 0 3 4 exClaimState).2 = none
    ∧ ((emergencyClaim 0 3 4 exClaimState).1.ledger 3).nonce = (exClaimState.ledger 3).nonce
    ∧ ((emergencyClaim 0 3 4 exClaimState).1.ledger 3).hasInteracted = true
    ∧ ((emergencyClaim 0 3 4 exClaimState).1.ledger 3).cumulativeClaimed
        = (exClaimState.ledger 3).cumulativeClaimed + 4
    ∧ (emergencyClaim 0 3 4 exClaimState).1.balance = exClaimState.balance - 4 :=
  claim_C8_nonce_discipline 5 1 2 0 3 4 exSig exClaimState (by rfl) rfl (by decide)

/-- C9: digest layout — a successful claim requires a well-formed
signature whose digest is exactly the fixed-layout packing of
`(userAddress, claimedTotal, currentNonce)` in that order with fixed
widths (20-byte address, 32-byte uint256, 32-byte uint256); and that
packing is injective on in-range field values, so a signature over any
other user, amount, or nonce value yields a different digest and is not
accepted for this claim. -/
theorem claim_C9_digest_layout (now user amt u a n u1 a1 n1 : Nat) (sig : Sig) (s : State)
    (hu : u < 256 ^ 20) (ha : a < 256 ^ 32) (hn : n < 256 ^ 32)
    (hu1 : u1 < 256 ^ 20) (ha1 : a1 < 256 ^ 32) (hn1 : n1 < 256 ^ 32) :
    ((claimRewards now user amt sig s).2 = none →
      sig.malformed = false ∧ sig.digest = packDigest user amt (s.ledger user).nonce)
    ∧ (packDigest u a n = packDigest u1 a1 n1 → u = u1 ∧ a = a1 ∧ n = n1) := by
  constructor
  · intro hsucc
    unfold claimRewards at hsucc
    split_ifs at hsucc with h1 h2 h3 h4 h5
    exact ⟨by simpa using h3, h4.1⟩
  · intro h
    exact packDigest_inj hu ha hn hu1 ha1 hn1 h

/-- C9 witness: the layout facts at concrete field values. -/
theorem claim_C9_witness :
    ((claimRewards 5 1 2 exSig exClaimState).2 = none →
      exSig.malformed = false ∧ exSig.digest = packDigest 1 2 (exClaimState.ledger 1).nonce)
    ∧ (packDigest 1 2 3 = packDigest 4 5 6 → (1 : Nat) = 4 ∧ (2 : Nat) = 5 ∧ (3 : Nat) = 6) :=
  claim_C9_digest_layout 5 1 2 1 2 3 4 5 6 exSig exClaimState
    (by norm_num) (by norm_num) (by norm_num) (by norm_num) (by norm_num) (by norm_num)

end KiltTreasury
